import Mathlib

/-!
Shallow embedding of the fixed-window rate limiter implemented in
src/src/lib/rate-limiter/index.ts, together with the rate-limit error class
of src/src/lib/errors (RateLimitError).

Modelling choices:
* Times are epoch milliseconds, modelled as naturals (JavaScript Date values
  are non-negative integers here).
* The persisted rateLimitRecord table is a partial map from keys to records;
  each prisma call of the source is one explicit store operation.
* JavaScript `Math.max(0, x)` and `Math.ceil(x / d)` are modelled on `Int`
  so that the saturation and rounding of the source survive the translation.
* Exceptions become `Except`; the database mutations performed before a
  throw (the cleanup sweep) are kept, so every operation returns the store
  it leaves behind alongside its outcome.
-/

namespace RateLimiterModel

/-- Math.ceil(x / d) for an integer x and a positive integer d
(integer division on Int is Euclidean, hence floor division for a
positive divisor, and ceil(x/d) = floor((x+d-1)/d)). -/
def jsCeil (x d : Int) : Int := (x + d - 1) / d

/-- One persisted RateLimitRecord row; the key is the index of the map. -/
structure RateLimitRecord where
  count : Nat
  expiresAt : Nat
  deriving Repr, DecidableEq

/-- The rateLimitRecord table: at most one row per key, modelled as a map. -/
def Store : Type := String → Option RateLimitRecord

/-- A table with no rows. -/
def emptyStore : Store := fun _ => none

/-- A table with exactly one row. -/
def singleStore (key : String) (r : RateLimitRecord) : Store :=
  fun k => if k = key then some r else none

/-- prisma.rateLimitRecord.findUnique where key. -/
def findUnique (s : Store) (key : String) : Option RateLimitRecord := s key

/-- prisma.rateLimitRecord.upsert where key: update the row when present,
create it otherwise; either way the row for key becomes r. -/
def dbUpsert (s : Store) (key : String) (r : RateLimitRecord) : Store :=
  fun k => if k = key then some r else s k

/-- prisma.rateLimitRecord.update where key with data count increment. -/
def dbIncrement (s : Store) (key : String) : Store :=
  fun k =>
    if k = key then (s k).map (fun r => ⟨r.count + 1, r.expiresAt⟩) else s k

/-- prisma.rateLimitRecord.deleteMany where expiresAt lt now
(the body of cleanupExpired). -/
def cleanupExpired (now : Nat) (s : Store) : Store :=
  fun k =>
    match s k with
    | some r => if r.expiresAt < now then none else some r
    | none => none

/-- The IRateLimitConfig of the source (maxRequests, windowMs). -/
structure IRateLimitConfig where
  maxRequests : Nat
  windowMs : Nat
  deriving Repr, DecidableEq

/-- The IRateLimitInfo returned to callers; all three fields are JavaScript
numbers in the source, modelled as integers. -/
structure IRateLimitInfo where
  limit : Int
  remaining : Int
  reset : Int
  deriving Repr, DecidableEq

/-- The RateLimitError of src/src/lib/errors: statusCode 429, a fixed
message, and the retryAfter payload. -/
structure RateLimitError where
  message : String
  statusCode : Nat
  retryAfter : Int
  deriving Repr, DecidableEq

/-- The RateLimitError constructor: super(message, 429, RATE_LIMIT_EXCEEDED)
plus the retryAfter field. -/
def mkRateLimitError (retryAfter : Int) : RateLimitError :=
  ⟨"Too many requests. Please try again later.", 429, retryAfter⟩

/-- generateKey of the source: the template string rate_limit:identifier. -/
def generateKey (identifier : String) : String :=
  "rate_limit:" ++ identifier

/-- calculateResetTime: Date.now() + windowMs. -/
def calculateResetTime (cfg : IRateLimitConfig) (now : Nat) : Nat :=
  now + cfg.windowMs

/-- The info built at the end of check (live branch) and consume:
limit, remaining = Math.max(0, maxRequests - count),
reset = Math.ceil(expiresAt / 1000). -/
def mkInfo (cfg : IRateLimitConfig) (r : RateLimitRecord) : IRateLimitInfo :=
  ⟨(cfg.maxRequests : Int),
   max 0 ((cfg.maxRequests : Int) - (r.count : Int)),
   jsCeil (r.expiresAt : Int) 1000⟩

/-- RateLimiter.check: cleanup sweep, findUnique, then either the
hypothetical fresh window (absent or expired) or the live record info.
The store component is the state the call leaves behind. -/
def check (cfg : IRateLimitConfig) (identifier : String) (now : Nat)
    (s : Store) : IRateLimitInfo × Store :=
  let key := generateKey identifier
  let s1 := cleanupExpired now s
  let freshInfo : IRateLimitInfo :=
    ⟨(cfg.maxRequests : Int), (cfg.maxRequests : Int),
     jsCeil ((calculateResetTime cfg now : Nat) : Int) 1000⟩
  match findUnique s1 key with
  | none => (freshInfo, s1)
  | some record =>
      if record.expiresAt < now then (freshInfo, s1)
      else (mkInfo cfg record, s1)

/-- RateLimiter.consume: cleanup sweep, findUnique, then one of the three
branches of the source: new window (absent or expired), rejection
(count at or above maxRequests), or atomic increment. -/
def consume (cfg : IRateLimitConfig) (identifier : String) (now : Nat)
    (s : Store) : Except RateLimitError IRateLimitInfo × Store :=
  let key := generateKey identifier
  let s1 := cleanupExpired now s
  match findUnique s1 key with
  | none =>
      let record : RateLimitRecord := ⟨1, calculateResetTime cfg now⟩
      (.ok (mkInfo cfg record), dbUpsert s1 key record)
  | some record =>
      if record.expiresAt < now then
        let record2 : RateLimitRecord := ⟨1, calculateResetTime cfg now⟩
        (.ok (mkInfo cfg record2), dbUpsert s1 key record2)
      else if cfg.maxRequests ≤ record.count then
        (.error (mkRateLimitError
           (jsCeil ((record.expiresAt : Int) - (now : Int)) 1000)), s1)
      else
        let record2 : RateLimitRecord := ⟨record.count + 1, record.expiresAt⟩
        (.ok (mkInfo cfg record2), dbIncrement s1 key)

/-- RateLimiter.reset: deleteMany where key; no error when absent. -/
def reset (identifier : String) (s : Store) : Store :=
  fun k => if k = generateKey identifier then none else s k

/-- Which storage primitives fail during one call, for the failure-semantics
analysis: the cleanup sweep delete, the findUnique read, or the
upsert/increment write. -/
structure StorageFaults where
  cleanup : Bool
  find : Bool
  write : Bool
  deriving Repr, DecidableEq

/-- Outcome of a call in the faulty-storage model: either the structured
rate-limit rejection or a propagated storage failure. -/
inductive ConsumeError where
  | rateLimited (e : RateLimitError)
  | storage
  deriving Repr, DecidableEq

/-- Embeds the fault-free outcome into the faulty-storage outcome type. -/
def liftOutcome (o : Except RateLimitError IRateLimitInfo) :
    Except ConsumeError IRateLimitInfo :=
  match o with
  | .ok i => .ok i
  | .error e => .error (.rateLimited e)

/-- consume under the faulty-storage model. The cleanup sweep is wrapped in
try/catch in the source, so its failure leaves the store as it was and the
call continues; a failing findUnique or a failing upsert/update throws out
of the method. -/
def consumeF (cfg : IRateLimitConfig) (f : StorageFaults) (identifier : String)
    (now : Nat) (s : Store) : Except ConsumeError IRateLimitInfo × Store :=
  let key := generateKey identifier
  let s1 := if f.cleanup then s else cleanupExpired now s
  if f.find then (.error .storage, s1)
  else
    match findUnique s1 key with
    | none =>
        if f.write then (.error .storage, s1)
        else
          let record : RateLimitRecord := ⟨1, calculateResetTime cfg now⟩
          (.ok (mkInfo cfg record), dbUpsert s1 key record)
    | some record =>
        if record.expiresAt < now then
          if f.write then (.error .storage, s1)
          else
            let record2 : RateLimitRecord := ⟨1, calculateResetTime cfg now⟩
            (.ok (mkInfo cfg record2), dbUpsert s1 key record2)
        else if cfg.maxRequests ≤ record.count then
          (.error (.rateLimited (mkRateLimitError
             (jsCeil ((record.expiresAt : Int) - (now : Int)) 1000))), s1)
        else if f.write then (.error .storage, s1)
        else
          let record2 : RateLimitRecord := ⟨record.count + 1, record.expiresAt⟩
          (.ok (mkInfo cfg record2), dbIncrement s1 key)

/-- check under the faulty-storage model: check performs no writes, so only
the cleanup sweep and the findUnique read can fail. -/
def checkF (cfg : IRateLimitConfig) (f : StorageFaults) (identifier : String)
    (now : Nat) (s : Store) : Except ConsumeError IRateLimitInfo × Store :=
  let key := generateKey identifier
  let s1 := if f.cleanup then s else cleanupExpired now s
  let freshInfo : IRateLimitInfo :=
    ⟨(cfg.maxRequests : Int), (cfg.maxRequests : Int),
     jsCeil ((calculateResetTime cfg now : Nat) : Int) 1000⟩
  if f.find then (.error .storage, s1)
  else
    match findUnique s1 key with
    | none => (.ok freshInfo, s1)
    | some record =>
        if record.expiresAt < now then (.ok freshInfo, s1)
        else (.ok (mkInfo cfg record), s1)

/-- The RateLimiterFactory registry: a map from limiter name to the config
of the instance stored under that name (a RateLimiter instance is
determined by its config; its counters live in the shared store). -/
def FactoryState : Type := String → Option IRateLimitConfig

/-- The factory registry before any limiter is requested. -/
def emptyFactory : FactoryState := fun _ => none

/-- RateLimiterFactory.createCustomLimiter: if no instance is registered
under name, register one built from config; return the registered
instance. -/
def createCustomLimiter (name : String) (config : IRateLimitConfig)
    (st : FactoryState) : IRateLimitConfig × FactoryState :=
  match st name with
  | some existing => (existing, st)
  | none => (config, fun k => if k = name then some config else st k)

/-- RateLimiterFactory.getDefaultLimiter: 100 requests per 15 minutes,
registered under the name default. -/
def getDefaultLimiter (st : FactoryState) : IRateLimitConfig × FactoryState :=
  createCustomLimiter "default" ⟨100, 15 * 60 * 1000⟩ st

/-- RateLimiterFactory.getAuthLimiter: 20 requests per 15 minutes,
registered under the name auth. -/
def getAuthLimiter (st : FactoryState) : IRateLimitConfig × FactoryState :=
  createCustomLimiter "auth" ⟨20, 15 * 60 * 1000⟩ st

/-- RateLimiterFactory.getStrictLimiter: 10 requests per minute, registered
under the name strict. -/
def getStrictLimiter (st : FactoryState) : IRateLimitConfig × FactoryState :=
  createCustomLimiter "strict" ⟨10, 60 * 1000⟩ st

/-- Runs a list of check calls (identifier, time), threading the store. -/
def runChecks (cfg : IRateLimitConfig) (ops : List (String × Nat))
    (s : Store) : Store :=
  ops.foldl (fun acc op => (check cfg op.1 op.2 acc).2) s

/-- Runs a list of consume calls (identifier, time), collecting each
outcome and threading the store. -/
def runConsumes (cfg : IRateLimitConfig) (ops : List (String × Nat))
    (s : Store) : List (Except RateLimitError IRateLimitInfo) × Store :=
  match ops with
  | [] => ([], s)
  | op :: rest =>
      let r := consume cfg op.1 op.2 s
      let rs := runConsumes cfg rest r.2
      (r.1 :: rs.1, rs.2)

/-- One operation of the public RateLimiter interface. -/
inductive LimiterOp where
  | checkOp (identifier : String)
  | consumeOp (identifier : String)
  | resetOp (identifier : String)
  deriving Repr, DecidableEq

/-- The store left behind by one timed operation. -/
def applyOp (cfg : IRateLimitConfig) (s : Store) (op : LimiterOp × Nat) :
    Store :=
  match op.1 with
  | .checkOp identifier => (check cfg identifier op.2 s).2
  | .consumeOp identifier => (consume cfg identifier op.2 s).2
  | .resetOp identifier => reset identifier s

/-- The store left behind by a timed operation sequence. -/
def runOps (cfg : IRateLimitConfig) (ops : List (LimiterOp × Nat))
    (s : Store) : Store :=
  ops.foldl (applyOp cfg) s

/-- The record-count invariant: every row whose window has not expired at
time now has a count at most maxRequests. -/
def CountInvariant (cfg : IRateLimitConfig) (now : Nat) (s : Store) : Prop :=
  ∀ k r, s k = some r → now ≤ r.expiresAt → r.count ≤ cfg.maxRequests

/-! Helper lemmas about the store operations. -/

theorem cleanup_lookup_none {s : Store} {k : String} (now : Nat)
    (h : s k = none) : cleanupExpired now s k = none := by
  simp [cleanupExpired, h]

theorem cleanup_lookup_expired {s : Store} {k : String} {r : RateLimitRecord}
    {now : Nat} (h : s k = some r) (he : r.expiresAt < now) :
    cleanupExpired now s k = none := by
  simp [cleanupExpired, h, he]

theorem cleanup_lookup_live {s : Store} {k : String} {r : RateLimitRecord}
    {now : Nat} (h : s k = some r) (hl : now ≤ r.expiresAt) :
    cleanupExpired now s k = some r := by
  simp [cleanupExpired, h, Nat.not_lt.mpr hl]

theorem cleanup_lookup_inv {s : Store} {k : String} {r : RateLimitRecord}
    {now : Nat} (h : cleanupExpired now s k = some r) :
    s k = some r ∧ ¬ r.expiresAt < now := by
  unfold cleanupExpired at h
  cases hs : s k with
  | none => simp [hs] at h
  | some r2 =>
      simp only [hs] at h
      by_cases he : r2.expiresAt < now
      · simp [he] at h
      · simp only [if_neg he] at h
        injection h with h2
        subst h2
        exact ⟨rfl, he⟩

theorem dbUpsert_self (s : Store) (key : String) (r : RateLimitRecord) :
    dbUpsert s key r key = some r := if_pos rfl

theorem dbIncrement_self {s : Store} {key : String} {r : RateLimitRecord}
    (h : s key = some r) :
    dbIncrement s key key = some ⟨r.count + 1, r.expiresAt⟩ := by
  simp [dbIncrement, h]

/-! Branch lemmas for consume, phrased on the store after the cleanup
sweep (the store consume actually reads). -/

theorem consume_clean_none (cfg : IRateLimitConfig) {identifier : String}
    {now : Nat} {s : Store}
    (h : cleanupExpired now s (generateKey identifier) = none) :
    consume cfg identifier now s =
      (.ok (mkInfo cfg ⟨1, now + cfg.windowMs⟩),
       dbUpsert (cleanupExpired now s) (generateKey identifier)
         ⟨1, now + cfg.windowMs⟩) := by
  simp [consume, findUnique, calculateResetTime, h]

theorem consume_clean_reject {cfg : IRateLimitConfig} {identifier : String}
    {now : Nat} {s : Store} {r : RateLimitRecord}
    (h : cleanupExpired now s (generateKey identifier) = some r)
    (hfull : cfg.maxRequests ≤ r.count) :
    consume cfg identifier now s =
      (.error (mkRateLimitError
         (jsCeil ((r.expiresAt : Int) - (now : Int)) 1000)),
       cleanupExpired now s) := by
  have hlive : ¬ r.expiresAt < now := (cleanup_lookup_inv h).2
  simp [consume, findUnique, h, hlive, hfull]

theorem consume_clean_increment {cfg : IRateLimitConfig} {identifier : String}
    {now : Nat} {s : Store} {r : RateLimitRecord}
    (h : cleanupExpired now s (generateKey identifier) = some r)
    (hroom : r.count < cfg.maxRequests) :
    consume cfg identifier now s =
      (.ok (mkInfo cfg ⟨r.count + 1, r.expiresAt⟩),
       dbIncrement (cleanupExpired now s) (generateKey identifier)) := by
  have hlive : ¬ r.expiresAt < now := (cleanup_lookup_inv h).2
  have hnf : ¬ cfg.maxRequests ≤ r.count := by omega
  simp [consume, findUnique, h, hlive, hnf]

/-! Branch lemmas for check. -/

theorem check_clean_none (cfg : IRateLimitConfig) {identifier : String}
    {now : Nat} {s : Store}
    (h : cleanupExpired now s (generateKey identifier) = none) :
    check cfg identifier now s =
      (⟨(cfg.maxRequests : Int), (cfg.maxRequests : Int),
        jsCeil ((now + cfg.windowMs : Nat) : Int) 1000⟩,
       cleanupExpired now s) := by
  simp [check, findUnique, calculateResetTime, h]

theorem check_clean_live {cfg : IRateLimitConfig} {identifier : String}
    {now : Nat} {s : Store} {r : RateLimitRecord}
    (h : cleanupExpired now s (generateKey identifier) = some r) :
    check cfg identifier now s = (mkInfo cfg r, cleanupExpired now s) := by
  have hlive : ¬ r.expiresAt < now := (cleanup_lookup_inv h).2
  simp [check, findUnique, h, hlive]

theorem check_store (cfg : IRateLimitConfig) (identifier : String)
    (now : Nat) (s : Store) :
    (check cfg identifier now s).2 = cleanupExpired now s := by
  cases h : cleanupExpired now s (generateKey identifier) with
  | none => rw [check_clean_none _ h]
  | some r => rw [check_clean_live h]

/-! Cleanup sweeps at nondecreasing times compose. -/

theorem cleanup_cleanup {t u : Nat} (h : t ≤ u) (s : Store) :
    cleanupExpired u (cleanupExpired t s) = cleanupExpired u s := by
  funext k
  unfold cleanupExpired
  cases hs : s k with
  | none => rfl
  | some r =>
      by_cases h1 : r.expiresAt < t
      · have h2 : r.expiresAt < u := by omega
        simp [h1, h2]
      · simp [h1]

theorem consume_cleanup {t u : Nat} (h : t ≤ u) (cfg : IRateLimitConfig)
    (identifier : String) (s : Store) :
    consume cfg identifier u (cleanupExpired t s) =
      consume cfg identifier u s := by
  unfold consume
  rw [cleanup_cleanup h]

theorem runConsumes_cleanup {t : Nat} (cfg : IRateLimitConfig)
    (ops : List (String × Nat)) (s : Store)
    (h : ∀ u ∈ ops, t ≤ u.2) :
    (runConsumes cfg ops (cleanupExpired t s)).1 =
      (runConsumes cfg ops s).1 := by
  cases ops with
  | nil => rfl
  | cons op rest =>
      have h1 : t ≤ op.2 := h op (List.mem_cons_self op rest)
      unfold runConsumes
      rw [consume_cleanup h1]

/-- Consuming repeatedly against one live record: every call inside the
window succeeds while the count stays below maxRequests, the outcomes list
the successive counts, and the final count is the initial count plus the
number of calls. -/
theorem runConsumes_window (cfg : IRateLimitConfig) (identifier : String)
    (ts : List Nat) :
    ∀ (s : Store) (c e : Nat),
      s (generateKey identifier) = some ⟨c, e⟩ →
      (∀ t ∈ ts, t ≤ e) →
      c + ts.length ≤ cfg.maxRequests →
      (runConsumes cfg (ts.map (fun t => (identifier, t))) s).1 =
        (List.range ts.length).map
          (fun i => Except.ok (mkInfo cfg ⟨c + 1 + i, e⟩)) ∧
      (runConsumes cfg (ts.map (fun t => (identifier, t))) s).2
        (generateKey identifier) = some ⟨c + ts.length, e⟩ := by
  induction ts with
  | nil =>
      intro s c e h _ _
      exact ⟨rfl, by simpa using h⟩
  | cons t rest ih =>
      intro s c e h hts hlen
      have ht : t ≤ e := hts t (List.mem_cons_self t rest)
      have hclean : cleanupExpired t s (generateKey identifier)
          = some ⟨c, e⟩ := cleanup_lookup_live h ht
      have hroom : c < cfg.maxRequests := by
        simp only [List.length_cons] at hlen; omega
      have hstep := consume_clean_increment hclean hroom
      have hkey : dbIncrement (cleanupExpired t s) (generateKey identifier)
          (generateKey identifier) = some ⟨c + 1, e⟩ :=
        dbIncrement_self hclean
      have hih := ih
        (dbIncrement (cleanupExpired t s) (generateKey identifier))
        (c + 1) e hkey (fun u hu => hts u (List.mem_cons_of_mem t hu))
        (by simp only [List.length_cons] at hlen; omega)
      constructor
      · simp only [List.map_cons, runConsumes, hstep, List.length_cons]
        rw [hih.1, List.range_succ_eq_map, List.map_cons, List.map_map]
        congr 1
        refine List.map_congr_left ?_
        intro i _
        simp only [Function.comp]
        have hh : c + 1 + 1 + i = c + 1 + (i + 1) := by omega
        rw [hh]
      · simp only [List.map_cons, runConsumes, hstep, List.length_cons]
        rw [hih.2]
        have hh : c + 1 + rest.length = c + (rest.length + 1) := by omega
        rw [hh]

theorem runConsumes_append (cfg : IRateLimitConfig)
    (a b : List (String × Nat)) (s : Store) :
    runConsumes cfg (a ++ b) s =
      ((runConsumes cfg a s).1 ++
         (runConsumes cfg b (runConsumes cfg a s).2).1,
       (runConsumes cfg b (runConsumes cfg a s).2).2) := by
  induction a generalizing s with
  | nil => rfl
  | cons op rest ih =>
      simp only [List.cons_append, runConsumes, List.append_eq, ih,
        List.nil_append]

theorem mkInfo_of_le {cfg : IRateLimitConfig} {c e : Nat}
    (h : c ≤ cfg.maxRequests) :
    mkInfo cfg ⟨c, e⟩ =
      ⟨(cfg.maxRequests : Int), (cfg.maxRequests : Int) - (c : Int),
       jsCeil (e : Int) 1000⟩ := by
  unfold mkInfo
  have h0 : (0 : Int) ≤ (cfg.maxRequests : Int) - (c : Int) := by
    omega
  rw [max_eq_right h0]

/-- C1: for a limiter with maxRequests = N and windowMs = W, starting from
a store with no record for the key, N consume calls within W milliseconds
of the first all succeed with remaining strictly decreasing from N - 1
down to 0, and an (N+1)th consume call still inside the window fails with
the rate-limit error. -/
theorem C1_fresh_key_first_N_succeed_then_reject
    (cfg : IRateLimitConfig) (identifier : String) (s : Store)
    (t0 tN : Nat) (ts : List Nat)
    (habs : s (generateKey identifier) = none)
    (hlen : (t0 :: ts).length = cfg.maxRequests)
    (hwin : ∀ t ∈ t0 :: ts ++ [tN], t ≤ t0 + cfg.windowMs) :
    (runConsumes cfg
        ((t0 :: ts ++ [tN]).map (fun t => (identifier, t))) s).1 =
      (List.range cfg.maxRequests).map
        (fun i : Nat => Except.ok
          (⟨(cfg.maxRequests : Int),
            (cfg.maxRequests : Int) - (((i : Nat) : Int) + 1),
            jsCeil ((t0 + cfg.windowMs : Nat) : Int) 1000⟩ : IRateLimitInfo))
      ++ [Except.error (mkRateLimitError
            (jsCeil (((t0 + cfg.windowMs : Nat) : Int) - (tN : Int)) 1000))] := by
  have hclean0 : cleanupExpired t0 s (generateKey identifier) = none :=
    cleanup_lookup_none t0 habs
  have hfirst := consume_clean_none cfg hclean0
  have hk1 : dbUpsert (cleanupExpired t0 s) (generateKey identifier)
      ⟨1, t0 + cfg.windowMs⟩ (generateKey identifier)
      = some ⟨1, t0 + cfg.windowMs⟩ := dbUpsert_self _ _ _
  have hN : ts.length + 1 = cfg.maxRequests := by simpa using hlen
  have hmid := runConsumes_window cfg identifier ts
    (dbUpsert (cleanupExpired t0 s) (generateKey identifier)
      ⟨1, t0 + cfg.windowMs⟩) 1 (t0 + cfg.windowMs) hk1
    (fun u hu => hwin u (by simp [hu]))
    (by omega)
  have htN : tN ≤ t0 + cfg.windowMs := hwin tN (by simp)
  have hcl2 : cleanupExpired tN
      ((runConsumes cfg (ts.map (fun t => (identifier, t)))
        (dbUpsert (cleanupExpired t0 s) (generateKey identifier)
          ⟨1, t0 + cfg.windowMs⟩)).2) (generateKey identifier)
      = some ⟨1 + ts.length, t0 + cfg.windowMs⟩ :=
    cleanup_lookup_live hmid.2 htN
  have hfull : cfg.maxRequests ≤ 1 + ts.length := by omega
  have hfin := consume_clean_reject hcl2 hfull
  simp only [List.map_cons, List.map_append, List.map_nil]
  simp only [runConsumes, hfirst]
  simp only [List.append_eq]
  rw [runConsumes_append]
  rw [hmid.1]
  simp only [runConsumes, hfin]
  have hrange : List.range cfg.maxRequests = List.range (ts.length + 1) := by
    rw [hN]
  rw [hrange, List.range_succ_eq_map, List.map_cons, List.map_map,
    List.cons_append]
  congr 1
  · rw [mkInfo_of_le (show (1 : Nat) ≤ cfg.maxRequests by omega)]
    norm_num
  congr 1
  refine List.map_congr_left ?_
  intro i hi
  have hi2 : i < ts.length := List.mem_range.mp hi
  simp only [Function.comp]
  rw [mkInfo_of_le (show 1 + 1 + i ≤ cfg.maxRequests by omega)]
  congr 1
  push_cast
  ring_nf

/-- Witness for C1 at maxRequests = 3, windowMs = 1000: calls at times
0, 100, 200 succeed with remaining 2, 1, 0 and the call at time 300 is
rejected. -/
theorem C1_witness :
    (runConsumes ⟨3, 1000⟩
        ((0 :: [100, 200] ++ [300]).map (fun t => ("a", t))) emptyStore).1 =
      (List.range 3).map
        (fun i : Nat => Except.ok
          (⟨((3 : Nat) : Int), ((3 : Nat) : Int) - (((i : Nat) : Int) + 1),
            jsCeil ((0 + 1000 : Nat) : Int) 1000⟩ : IRateLimitInfo))
      ++ [Except.error (mkRateLimitError
            (jsCeil (((0 + 1000 : Nat) : Int) - ((300 : Nat) : Int)) 1000))] :=
  C1_fresh_key_first_N_succeed_then_reject ⟨3, 1000⟩ "a" emptyStore 0 300
    [100, 200] rfl rfl (by decide)

/-- C2: a consume against a present, live record whose count has reached
maxRequests fails with the rate-limit error carrying
retryAfter = ceil((expiresAt - now) / 1000), that value is nonnegative,
and the stored record for the key is unchanged. -/
theorem C2_reject_retry_after (cfg : IRateLimitConfig) (identifier : String)
    (now : Nat) (s : Store) (r : RateLimitRecord)
    (hr : s (generateKey identifier) = some r)
    (hlive : ¬ r.expiresAt < now)
    (hfull : cfg.maxRequests ≤ r.count) :
    (consume cfg identifier now s).1 =
      .error (mkRateLimitError
        (jsCeil ((r.expiresAt : Int) - (now : Int)) 1000))
    ∧ 0 ≤ jsCeil ((r.expiresAt : Int) - (now : Int)) 1000
    ∧ (consume cfg identifier now s).2 (generateKey identifier) = some r := by
  have hl : now ≤ r.expiresAt := Nat.not_lt.mp hlive
  have hclean : cleanupExpired now s (generateKey identifier) = some r :=
    cleanup_lookup_live hr hl
  have hc := consume_clean_reject hclean hfull
  refine ⟨by rw [hc], ?_, by rw [hc]; exact hclean⟩
  unfold jsCeil
  omega

/-- Witness for C2: a full record (count 2 of 2) live until 5000, consumed
at 4000, is rejected with retryAfter 1 and stays untouched. -/
theorem C2_witness :
    (consume ⟨2, 1000⟩ "a" 4000
        (singleStore (generateKey "a") ⟨2, 5000⟩)).1 =
      .error (mkRateLimitError
        (jsCeil (((5000 : Nat) : Int) - ((4000 : Nat) : Int)) 1000))
    ∧ 0 ≤ jsCeil (((5000 : Nat) : Int) - ((4000 : Nat) : Int)) 1000
    ∧ (consume ⟨2, 1000⟩ "a" 4000
        (singleStore (generateKey "a") ⟨2, 5000⟩)).2 (generateKey "a") =
          some ⟨2, 5000⟩ :=
  C2_reject_retry_after ⟨2, 1000⟩ "a" 4000
    (singleStore (generateKey "a") ⟨2, 5000⟩) ⟨2, 5000⟩
    (by decide) (by decide) (by decide)

/-- C3: when the record for the key is absent or expired, consume starts a
new window: it succeeds with remaining = maxRequests - 1 and the stored
record becomes count 1 with expiresAt = now + windowMs, regardless of the
previous window. -/
theorem C3_new_window_on_absent_or_expired (cfg : IRateLimitConfig)
    (identifier : String) (now : Nat) (s : Store)
    (hmax : 1 ≤ cfg.maxRequests)
    (h : ∀ r, s (generateKey identifier) = some r → r.expiresAt < now) :
    (consume cfg identifier now s).1 =
      .ok ⟨(cfg.maxRequests : Int), (cfg.maxRequests : Int) - 1,
           jsCeil ((now + cfg.windowMs : Nat) : Int) 1000⟩
    ∧ (consume cfg identifier now s).2 (generateKey identifier) =
        some ⟨1, now + cfg.windowMs⟩ := by
  have hclean : cleanupExpired now s (generateKey identifier) = none := by
    cases hs : s (generateKey identifier) with
    | none => exact cleanup_lookup_none now hs
    | some r => exact cleanup_lookup_expired hs (h r hs)
  have hc := consume_clean_none cfg hclean
  constructor
  · rw [hc, mkInfo_of_le hmax]
    norm_num
  · rw [hc]
    exact dbUpsert_self _ _ _

/-- Witness for C3: a record that expired at 500 (count 5, far above the
limit 3) is replaced at time 1000 by a fresh window with remaining 2. -/
theorem C3_witness :
    (consume ⟨3, 1000⟩ "a" 1000
        (singleStore (generateKey "a") ⟨5, 500⟩)).1 =
      .ok ⟨((3 : Nat) : Int), ((3 : Nat) : Int) - 1,
           jsCeil ((1000 + 1000 : Nat) : Int) 1000⟩
    ∧ (consume ⟨3, 1000⟩ "a" 1000
        (singleStore (generateKey "a") ⟨5, 500⟩)).2 (generateKey "a") =
          some ⟨1, 1000 + 1000⟩ :=
  C3_new_window_on_absent_or_expired ⟨3, 1000⟩ "a" 1000
    (singleStore (generateKey "a") ⟨5, 500⟩) (by decide)
    (by
      intro r hr
      rw [show singleStore (generateKey "a") ⟨5, 500⟩ (generateKey "a") =
        some ⟨5, 500⟩ by decide] at hr
      injection hr with h2
      rw [← h2]
      decide)

/-- C4 counterexample: the source key has no namespace component. The key
generated for identifier ip1 is rate_limit:ip1, not the claimed
rate_limit:default:ip1 or rate_limit:auth:ip1; and a consume for ip1
ignores a full record stored under the claimed namespaced key while it is
rejected by a full record stored under rate_limit:ip1. -/
theorem C4_counterexample :
    generateKey "ip1" = "rate_limit:ip1"
    ∧ generateKey "ip1" ≠ "rate_limit:default:ip1"
    ∧ generateKey "ip1" ≠ "rate_limit:auth:ip1"
    ∧ (consume ⟨1, 1000⟩ "ip1" 0
         (singleStore "rate_limit:default:ip1" ⟨1, 5000⟩)).1 =
        .ok ⟨((1 : Nat) : Int), max 0 (((1 : Nat) : Int) - 1),
             jsCeil ((0 + 1000 : Nat) : Int) 1000⟩
    ∧ (consume ⟨1, 1000⟩ "ip1" 0
         (singleStore "rate_limit:ip1" ⟨1, 5000⟩)).1 =
        .error (mkRateLimitError
          (jsCeil (((5000 : Nat) : Int) - ((0 : Nat) : Int)) 1000)) := by
  refine ⟨rfl, by decide, by decide, ?_, ?_⟩
  · rfl
  · rfl

/-- C4 amended: for every identifier the storage key used by check,
consume and reset is rate_limit: followed by the identifier alone, with no
namespace component, so distinct named limiter instances sharing one
storage table address the same record for the same identifier. -/
theorem C4_amended_key_without_namespace (identifier : String) :
    generateKey identifier = "rate_limit:" ++ identifier
    ∧ (∀ s : Store, reset identifier s ("rate_limit:" ++ identifier) = none)
    ∧ (∀ (cfg : IRateLimitConfig) (now : Nat) (s : Store) (k : String),
        k ≠ generateKey identifier →
        (consume cfg identifier now s).2 k = cleanupExpired now s k) := by
  refine ⟨rfl, fun s => by simp [reset, generateKey], ?_⟩
  intro cfg now s k hk
  cases hclean : cleanupExpired now s (generateKey identifier) with
  | none =>
      rw [consume_clean_none _ hclean]
      exact if_neg hk
  | some r =>
      rcases Nat.lt_or_ge r.count cfg.maxRequests with hroom | hfull
      · rw [consume_clean_increment hclean hroom]
        exact if_neg hk
      · rw [consume_clean_reject hclean hfull]

/-- Witness for C4 amended: reset for x deletes the row under
rate_limit:x, and a consume for x leaves an unrelated key alone. -/
theorem C4_amended_witness :
    reset "x" (singleStore "rate_limit:x" ⟨1, 5⟩) "rate_limit:x" = none
    ∧ (consume ⟨3, 1000⟩ "x" 0 emptyStore).2 "other" =
        cleanupExpired 0 emptyStore "other" :=
  ⟨(C4_amended_key_without_namespace "x").2.1 _,
   (C4_amended_key_without_namespace "x").2.2 ⟨3, 1000⟩ 0 emptyStore "other"
     (by decide)⟩

/-- C5: check calls never change the observable state: any number of check
calls inserted before a consume sequence (at times not later than the
consume times) leaves every outcome of the consume sequence unchanged. -/
theorem C5_check_does_not_affect_consumes (cfg : IRateLimitConfig)
    (checks consumes : List (String × Nat)) (s : Store)
    (hord : ∀ c ∈ checks, ∀ u ∈ consumes, c.2 ≤ u.2) :
    (runConsumes cfg consumes (runChecks cfg checks s)).1 =
      (runConsumes cfg consumes s).1 := by
  induction checks generalizing s with
  | nil => rfl
  | cons cop rest ih =>
      have h1 : ∀ c ∈ rest, ∀ u ∈ consumes, c.2 ≤ u.2 :=
        fun c hc => hord c (List.mem_cons_of_mem cop hc)
      have h2 : ∀ u ∈ consumes, cop.2 ≤ u.2 :=
        hord cop (List.mem_cons_self cop rest)
      have hrc : runChecks cfg (cop :: rest) s =
          runChecks cfg rest (cleanupExpired cop.2 s) := by
        simp [runChecks, check_store]
      rw [hrc, ih _ h1, runConsumes_cleanup cfg consumes s h2]

/-- Witness for C5: one check before two consumes on a fresh store leaves
both consume outcomes unchanged. -/
theorem C5_witness :
    (runConsumes ⟨3, 1000⟩ [("a", 5), ("b", 7)]
        (runChecks ⟨3, 1000⟩ [("a", 0)] emptyStore)).1 =
      (runConsumes ⟨3, 1000⟩ [("a", 5), ("b", 7)] emptyStore).1 :=
  C5_check_does_not_affect_consumes ⟨3, 1000⟩ [("a", 0)] [("a", 5), ("b", 7)]
    emptyStore (by decide)

theorem inv_mono {cfg : IRateLimitConfig} {t u : Nat} {s : Store}
    (h : CountInvariant cfg t s) (htu : t ≤ u) : CountInvariant cfg u s :=
  fun k r hk he => h k r hk (Nat.le_trans htu he)

theorem inv_cleanup {cfg : IRateLimitConfig} {t u : Nat} {s : Store}
    (h : CountInvariant cfg t s) (htu : t ≤ u) :
    CountInvariant cfg u (cleanupExpired u s) := by
  intro k r hk he
  obtain ⟨hs, _⟩ := cleanup_lookup_inv hk
  exact h k r hs (by omega)

theorem reset_lookup_sub {identifier : String} {s : Store} {k : String}
    {r : RateLimitRecord} (h : reset identifier s k = some r) :
    s k = some r := by
  unfold reset at h
  by_cases hk : k = generateKey identifier
  · simp [hk] at h
  · simpa [hk] using h

theorem applyOp_preserves_inv {cfg : IRateLimitConfig}
    (hmax : 1 ≤ cfg.maxRequests) {t : Nat} {s : Store}
    (h : CountInvariant cfg t s) (op : LimiterOp) {u : Nat} (htu : t ≤ u) :
    CountInvariant cfg u (applyOp cfg s (op, u)) := by
  cases op with
  | checkOp identifier =>
      show CountInvariant cfg u (check cfg identifier u s).2
      rw [check_store]
      exact inv_cleanup h htu
  | resetOp identifier =>
      intro k r hk he
      exact h k r (reset_lookup_sub hk) (by omega)
  | consumeOp identifier =>
      show CountInvariant cfg u (consume cfg identifier u s).2
      cases hclean : cleanupExpired u s (generateKey identifier) with
      | none =>
          rw [consume_clean_none _ hclean]
          intro k r hk he
          have hk2 : dbUpsert (cleanupExpired u s) (generateKey identifier)
              ⟨1, u + cfg.windowMs⟩ k = some r := hk
          by_cases hkey : k = generateKey identifier
          · rw [hkey, dbUpsert_self] at hk2
            injection hk2 with h2
            rw [← h2]
            exact hmax
          · rw [show dbUpsert (cleanupExpired u s) (generateKey identifier)
                ⟨1, u + cfg.windowMs⟩ k = cleanupExpired u s k
              from if_neg hkey] at hk2
            obtain ⟨hs, _⟩ := cleanup_lookup_inv hk2
            exact h k r hs (by omega)
      | some r0 =>
          rcases Nat.lt_or_ge r0.count cfg.maxRequests with hroom | hfull
          · rw [consume_clean_increment hclean hroom]
            intro k r hk he
            have hk2 : dbIncrement (cleanupExpired u s)
                (generateKey identifier) k = some r := hk
            by_cases hkey : k = generateKey identifier
            · rw [hkey, dbIncrement_self hclean] at hk2
              injection hk2 with h2
              rw [← h2]
              exact hroom
            · rw [show dbIncrement (cleanupExpired u s)
                  (generateKey identifier) k = cleanupExpired u s k
                from if_neg hkey] at hk2
              obtain ⟨hs, _⟩ := cleanup_lookup_inv hk2
              exact h k r hs (by omega)
          · rw [consume_clean_reject hclean hfull]
            exact inv_cleanup h htu

theorem runOps_preserves_inv (cfg : IRateLimitConfig)
    (hmax : 1 ≤ cfg.maxRequests) (ops : List (LimiterOp × Nat)) :
    ∀ (s : Store) (t : Nat),
      CountInvariant cfg t s →
      List.Pairwise (fun a b => a.2 ≤ b.2) ops →
      (∀ o ∈ ops, t ≤ o.2) →
      ∀ tEnd, (∀ o ∈ ops, o.2 ≤ tEnd) → t ≤ tEnd →
      CountInvariant cfg tEnd (runOps cfg ops s) := by
  induction ops with
  | nil =>
      intro s t h _ _ tEnd _ htEnd
      exact inv_mono h htEnd
  | cons op rest ih =>
      intro s t h hpair hstart tEnd hend htEnd
      have hto : t ≤ op.2 := hstart op (List.mem_cons_self op rest)
      have hstep : CountInvariant cfg op.2 (applyOp cfg s op) :=
        applyOp_preserves_inv hmax h op.1 hto
      rcases hpair with _ | ⟨h1, hpair2⟩
      exact ih (applyOp cfg s op) op.2 hstep hpair2 h1 tEnd
        (fun o ho => hend o (List.mem_cons_of_mem op ho))
        (hend op (List.mem_cons_self op rest))

/-- C6: starting from an empty table, after any sequence of check, consume
and reset operations at nondecreasing times, every stored record whose
window has not expired has count at most maxRequests; and a consume that
would exceed the limit is rejected without recording the attempt. -/
theorem C6_count_never_exceeds_max (cfg : IRateLimitConfig)
    (hmax : 1 ≤ cfg.maxRequests) (ops : List (LimiterOp × Nat)) (tEnd : Nat)
    (hpair : List.Pairwise (fun a b => a.2 ≤ b.2) ops)
    (hend : ∀ o ∈ ops, o.2 ≤ tEnd) :
    CountInvariant cfg tEnd (runOps cfg ops emptyStore)
    ∧ ∀ (identifier : String) (now : Nat) (s : Store) (r : RateLimitRecord),
        s (generateKey identifier) = some r → ¬ r.expiresAt < now →
        cfg.maxRequests ≤ r.count →
        (∃ e, (consume cfg identifier now s).1 = .error e)
        ∧ (consume cfg identifier now s).2 (generateKey identifier) =
            some r := by
  constructor
  · exact runOps_preserves_inv cfg hmax ops emptyStore 0
      (fun k r hk _ => Option.noConfusion hk) hpair
      (fun o _ => Nat.zero_le _) tEnd hend (Nat.zero_le _)
  · intro identifier now s r hr hlive hfull
    have hclean : cleanupExpired now s (generateKey identifier) = some r :=
      cleanup_lookup_live hr (Nat.not_lt.mp hlive)
    have hc := consume_clean_reject hclean hfull
    exact ⟨⟨_, by rw [hc]⟩, by rw [hc]; exact hclean⟩

/-- Witness for C6: a concrete operation sequence (two consumes, a check
and a reset) keeps every live count within the limit 2. -/
theorem C6_witness :
    CountInvariant ⟨2, 1000⟩ 10
      (runOps ⟨2, 1000⟩
        [(.consumeOp "a", 0), (.consumeOp "a", 1), (.checkOp "b", 2),
         (.resetOp "a", 3)] emptyStore) :=
  (C6_count_never_exceeds_max ⟨2, 1000⟩ (by decide)
    [(.consumeOp "a", 0), (.consumeOp "a", 1), (.checkOp "b", 2),
     (.resetOp "a", 3)] 10 (by decide) (by decide)).1

/-- C7: a storage failure in the cleanup sweep is swallowed — the call
returns exactly the fault-free outcome; a storage failure in the core
findUnique read, or in the upsert/increment write of a branch that writes,
propagates to the caller as a failure, for both consume and check. -/
theorem C7_storage_failure_semantics (cfg : IRateLimitConfig)
    (identifier : String) (now : Nat) (s : Store) :
    ((consumeF cfg ⟨true, false, false⟩ identifier now s).1 =
       liftOutcome (consume cfg identifier now s).1)
    ∧ ((checkF cfg ⟨true, false, false⟩ identifier now s).1 =
       .ok (check cfg identifier now s).1)
    ∧ (∀ c w : Bool,
        (consumeF cfg ⟨c, true, w⟩ identifier now s).1 = .error .storage)
    ∧ (∀ c w : Bool,
        (checkF cfg ⟨c, true, w⟩ identifier now s).1 = .error .storage)
    ∧ ((∀ r, cleanupExpired now s (generateKey identifier) = some r →
          r.count < cfg.maxRequests) →
        (consumeF cfg ⟨false, false, true⟩ identifier now s).1 =
          .error .storage) := by
  refine ⟨?_, ?_, ?_, ?_, ?_⟩
  · cases hs : s (generateKey identifier) with
    | none =>
        have hclean := cleanup_lookup_none now hs
        simp [consumeF, consume, findUnique, hs, hclean, liftOutcome]
    | some r =>
        by_cases hexp : r.expiresAt < now
        · have hclean := cleanup_lookup_expired hs hexp
          simp [consumeF, consume, findUnique, hs, hclean, hexp, liftOutcome]
        · have hclean := cleanup_lookup_live hs (Nat.not_lt.mp hexp)
          by_cases hfull : cfg.maxRequests ≤ r.count
          · simp [consumeF, consume, findUnique, hs, hclean, hexp, hfull,
              liftOutcome]
          · simp [consumeF, consume, findUnique, hs, hclean, hexp, hfull,
              liftOutcome]
  · cases hs : s (generateKey identifier) with
    | none =>
        have hclean := cleanup_lookup_none now hs
        simp [checkF, check, findUnique, hs, hclean]
    | some r =>
        by_cases hexp : r.expiresAt < now
        · have hclean := cleanup_lookup_expired hs hexp
          simp [checkF, check, findUnique, hs, hclean, hexp]
        · have hclean := cleanup_lookup_live hs (Nat.not_lt.mp hexp)
          simp [checkF, check, findUnique, hs, hclean, hexp]
  · intro c w
    simp [consumeF]
  · intro c w
    simp [checkF]
  · intro h
    cases hclean : cleanupExpired now s (generateKey identifier) with
    | none => simp [consumeF, findUnique, hclean]
    | some r =>
        have hroom := h r hclean
        have hlive := (cleanup_lookup_inv hclean).2
        have hnf : ¬ cfg.maxRequests ≤ r.count := by omega
        simp [consumeF, findUnique, hclean, hlive, hnf]

/-- Witness for C7: on a fresh store, a failing cleanup sweep leaves the
consume outcome unchanged, while a failing read or a failing write turns
the call into a storage failure. -/
theorem C7_witness :
    ((consumeF ⟨3, 1000⟩ ⟨true, false, false⟩ "a" 0 emptyStore).1 =
       liftOutcome (consume ⟨3, 1000⟩ "a" 0 emptyStore).1)
    ∧ ((consumeF ⟨3, 1000⟩ ⟨false, true, false⟩ "a" 0 emptyStore).1 =
       .error .storage)
    ∧ ((consumeF ⟨3, 1000⟩ ⟨false, false, true⟩ "a" 0 emptyStore).1 =
       .error .storage)
    ∧ ((checkF ⟨3, 1000⟩ ⟨false, true, false⟩ "a" 0 emptyStore).1 =
       .error .storage) :=
  ⟨(C7_storage_failure_semantics ⟨3, 1000⟩ "a" 0 emptyStore).1,
   (C7_storage_failure_semantics ⟨3, 1000⟩ "a" 0 emptyStore).2.2.1 false false,
   (C7_storage_failure_semantics ⟨3, 1000⟩ "a" 0 emptyStore).2.2.2.2
     (fun _ hr => Option.noConfusion hr),
   (C7_storage_failure_semantics ⟨3, 1000⟩ "a" 0 emptyStore).2.2.2.1
     false false⟩

/-- C8: for a key whose record is absent or expired, check answers the
hypothetical window limit/remaining/reset without creating a row, and a
later consume for that key still starts a fresh window with
remaining = maxRequests - 1. -/
theorem C8_check_absent_is_hypothetical (cfg : IRateLimitConfig)
    (identifier : String) (now now2 : Nat) (s : Store)
    (hmax : 1 ≤ cfg.maxRequests)
    (h : ∀ r, s (generateKey identifier) = some r → r.expiresAt < now) :
    (check cfg identifier now s).1 =
      ⟨(cfg.maxRequests : Int), (cfg.maxRequests : Int),
       jsCeil ((now + cfg.windowMs : Nat) : Int) 1000⟩
    ∧ (check cfg identifier now s).2 (generateKey identifier) = none
    ∧ (consume cfg identifier now2 ((check cfg identifier now s).2)).1 =
        .ok ⟨(cfg.maxRequests : Int), (cfg.maxRequests : Int) - 1,
             jsCeil ((now2 + cfg.windowMs : Nat) : Int) 1000⟩ := by
  have hclean : cleanupExpired now s (generateKey identifier) = none := by
    cases hs : s (generateKey identifier) with
    | none => exact cleanup_lookup_none now hs
    | some r => exact cleanup_lookup_expired hs (h r hs)
  have hck := check_clean_none cfg hclean
  refine ⟨by rw [hck], by rw [hck]; exact hclean, ?_⟩
  rw [check_store]
  have h2 : cleanupExpired now2 (cleanupExpired now s)
      (generateKey identifier) = none := cleanup_lookup_none now2 hclean
  have hc := consume_clean_none cfg h2
  rw [hc, mkInfo_of_le hmax]
  norm_num

/-- Witness for C8: a check at time 0 on a never-consumed key answers the
hypothetical window and creates no row, and a consume at time 5 still
starts at remaining 2 (not 1). -/
theorem C8_witness :
    (check ⟨3, 1000⟩ "b" 0 emptyStore).1 =
      ⟨((3 : Nat) : Int), ((3 : Nat) : Int),
       jsCeil ((0 + 1000 : Nat) : Int) 1000⟩
    ∧ (check ⟨3, 1000⟩ "b" 0 emptyStore).2 (generateKey "b") = none
    ∧ (consume ⟨3, 1000⟩ "b" 5 ((check ⟨3, 1000⟩ "b" 0 emptyStore).2)).1 =
        .ok ⟨((3 : Nat) : Int), ((3 : Nat) : Int) - 1,
             jsCeil ((5 + 1000 : Nat) : Int) 1000⟩ :=
  C8_check_absent_is_hypothetical ⟨3, 1000⟩ "b" 0 5 emptyStore (by decide)
    (fun r hr => Option.noConfusion hr)

/-- C9: reset deletes exactly the record for the derived key, succeeds
when no record exists, is idempotent, and the immediately following
consume behaves as on a fresh key, succeeding with
remaining = maxRequests - 1. -/
theorem C9_reset_deletes_and_freshens (cfg : IRateLimitConfig)
    (identifier : String) (now : Nat) (s : Store)
    (hmax : 1 ≤ cfg.maxRequests) :
    reset identifier s (generateKey identifier) = none
    ∧ (∀ k, k ≠ generateKey identifier → reset identifier s k = s k)
    ∧ reset identifier (reset identifier s) = reset identifier s
    ∧ (consume cfg identifier now (reset identifier s)).1 =
        .ok ⟨(cfg.maxRequests : Int), (cfg.maxRequests : Int) - 1,
             jsCeil ((now + cfg.windowMs : Nat) : Int) 1000⟩ := by
  refine ⟨by simp [reset], fun k hk => by simp [reset, hk], ?_, ?_⟩
  · funext k
    by_cases hk : k = generateKey identifier <;> simp [reset, hk]
  · have habs : reset identifier s (generateKey identifier) = none := by
      simp [reset]
    have hclean := cleanup_lookup_none now habs
    have hc := consume_clean_none cfg hclean
    rw [hc, mkInfo_of_le hmax]
    norm_num

/-- Witness for C9: resetting a key whose record is full and live deletes
the row, a second reset changes nothing, and the next consume succeeds
with remaining 2. -/
theorem C9_witness :
    reset "a" (singleStore (generateKey "a") ⟨3, 100⟩)
      (generateKey "a") = none
    ∧ (∀ k, k ≠ generateKey "a" →
        reset "a" (singleStore (generateKey "a") ⟨3, 100⟩) k =
          singleStore (generateKey "a") ⟨3, 100⟩ k)
    ∧ reset "a" (reset "a" (singleStore (generateKey "a") ⟨3, 100⟩)) =
        reset "a" (singleStore (generateKey "a") ⟨3, 100⟩)
    ∧ (consume ⟨3, 1000⟩ "a" 7
        (reset "a" (singleStore (generateKey "a") ⟨3, 100⟩))).1 =
        .ok ⟨((3 : Nat) : Int), ((3 : Nat) : Int) - 1,
             jsCeil ((7 + 1000 : Nat) : Int) 1000⟩ :=
  C9_reset_deletes_and_freshens ⟨3, 1000⟩ "a" 7
    (singleStore (generateKey "a") ⟨3, 100⟩) (by decide)

/-- C10: once an instance is registered under a name, a later
createCustomLimiter call for that name returns the registered instance
unchanged and silently discards the supplied config. -/
theorem C10_create_custom_ignores_config (name : String)
    (config : IRateLimitConfig) (st : FactoryState) (c : IRateLimitConfig)
    (h : st name = some c) :
    createCustomLimiter name config st = (c, st) := by
  simp [createCustomLimiter, h]

/-- Witness for C10: after getDefaultLimiter registers the default
limiter, createCustomLimiter for name default with a different config
returns the 100-per-15-minutes instance and leaves the registry as is. -/
theorem C10_witness :
    createCustomLimiter "default" ⟨5, 60000⟩
        (getDefaultLimiter emptyFactory).2 =
      (⟨100, 15 * 60 * 1000⟩, (getDefaultLimiter emptyFactory).2) :=
  C10_create_custom_ignores_config "default" ⟨5, 60000⟩
    (getDefaultLimiter emptyFactory).2 ⟨100, 15 * 60 * 1000⟩ (by decide)

end RateLimiterModel
